import Mathlib

/-!
Verification development for the simple-calculator formula engine.

The embedding below follows the sources of the repository:
`src/utils.ts` (the `nextX` column increment), `src/types.ts` (the typed
value model `BaseValue`/`StringValue`/`NumberValue`/..., the AST node
`evaluate` methods, the `FUNCTION_MAP` registry, and the token/lexer data),
and the recursive-descent `Parser` of `src/parser.ts` (the snapshot with
`^`, functions and ranges).  JavaScript numbers are modelled as `JsNum`:
either NaN or an exact rational.  Infinite doubles, `-0`, fractional
exponents of `Math.pow`, and decimal/exponent string numerals lie outside
the rational fragment exercised by the statements proved here; where such a
corner would arise the model maps it to NaN and the definition's doc
comment says so.  Thrown JavaScript errors are modelled as the `.error`
channel of `Except String`; `ErrorValue` results flow as ordinary `.ok`
values, exactly separating the two error tiers of the source.
-/

/-- Model of a JavaScript number: NaN or an exact rational.  Infinities and
`-0` are not representable; no statement below exercises them. -/
inductive JsNum where
  | nan : JsNum
  | q (x : ℚ) : JsNum
deriving DecidableEq

/-- JavaScript `+` on two numbers (NaN propagates). -/
def jsNumAdd : JsNum → JsNum → JsNum
  | .q a, .q b => .q (a + b)
  | _, _ => .nan

/-- JavaScript `-` on two numbers (NaN propagates). -/
def jsNumSub : JsNum → JsNum → JsNum
  | .q a, .q b => .q (a - b)
  | _, _ => .nan

/-- JavaScript `*` on two numbers (NaN propagates). -/
def jsNumMul : JsNum → JsNum → JsNum
  | .q a, .q b => .q (a * b)
  | _, _ => .nan

/-- JavaScript `/` on two numbers.  Division by zero yields `Infinity` (or
NaN for `0/0`) in JavaScript; infinities are outside this rational model and
are conflated with NaN here — no claim divides by zero. -/
def jsNumDiv : JsNum → JsNum → JsNum
  | .q a, .q b => if b = 0 then .nan else .q (a / b)
  | _, _ => .nan

/-- JavaScript unary negation on a number. -/
def jsNumNeg : JsNum → JsNum
  | .q a => .q (-a)
  | .nan => .nan

/-- JavaScript `Math.pow`.  Any base to the exponent `0` is `1` (also for a
NaN base, as in JavaScript).  Integral exponents are computed exactly;
`0` to a negative power (JS: `Infinity`) and fractional exponents (JS: a
real-valued power) are outside the rational model and map to NaN — no claim
exercises those corners. -/
def jsNumPow (a b : JsNum) : JsNum :=
  match b with
  | .nan => .nan
  | .q be =>
    if be = 0 then .q 1
    else
      match a with
      | .nan => .nan
      | .q ab =>
        if be.den = 1 then
          if 0 ≤ be.num then .q (ab ^ be.num.toNat)
          else if ab = 0 then .nan
          else .q (ab ^ be.num)
        else .nan

/-- JavaScript number-to-string conversion.  Integral values print as in
JavaScript (`"64"`, `"-3"`); NaN prints `"NaN"`.  A non-integral rational
prints as `num/den` here whereas JavaScript prints a decimal expansion —
every string conversion performed by the statements below is integral. -/
def jsNumToString : JsNum → String
  | .nan => "NaN"
  | .q x => if x.den = 1 then toString x.num else toString x.num ++ "/" ++ toString x.den

/-- Lexicographic strict comparison of character lists by code point: the
order JavaScript uses for `<`/`>` on strings (code-unit order; identical on
the ASCII strings handled here). -/
def charListLt : List Char → List Char → Bool
  | _, [] => false
  | [], _ :: _ => true
  | a :: as, b :: bs => if a < b then true else if b < a then false else charListLt as bs

/-- JavaScript `a > b` on strings. -/
def jsStrGt (a b : String) : Bool := charListLt b.data a.data

/-- JavaScript `a <= b` on strings (total order, so the negation of `>`). -/
def jsStrLe (a b : String) : Bool := !(jsStrGt a b)

/-- Value of a list of decimal digit characters. -/
def digitsToNat (l : List Char) : ℕ := l.foldl (fun a c => a * 10 + (c.toNat - 48)) 0

/-- JavaScript `Number(string)`: trims whitespace, the empty string is `0`,
an optionally signed run of decimal digits is its value, anything else is
NaN.  JavaScript additionally parses decimal fractions, exponent and hex
forms; no statement below feeds such a numeral to this conversion. -/
def jsParseNumber (s : String) : JsNum :=
  match (s.trim).data with
  | [] => .q 0
  | '-' :: ds => if !ds.isEmpty && ds.all Char.isDigit then .q (-(digitsToNat ds : ℚ)) else .nan
  | '+' :: ds => if !ds.isEmpty && ds.all Char.isDigit then .q (digitsToNat ds) else .nan
  | ds => if ds.all Char.isDigit then .q (digitsToNat ds) else .nan

/-- Raw (unboxed) JavaScript values, as handled by the raw-value pipeline of
`src/parser.ts` and by the flattened sequences the `FUNCTION_MAP` reducers
of `src/types.ts` fold over.  `robj` stands for a non-primitive object with
no own `toString` (such as an `ErrorValue`). -/
inductive Raw where
  | rstr (s : String)
  | rnum (n : JsNum)
  | rbool (b : Bool)
  | rnull
  | rarr (l : List Raw)
  | robj

mutual
/-- JavaScript `String(x)` on a raw value: arrays print as their
comma-joined elements, a plain object as `[object Object]`. -/
def rawToStr : Raw → String
  | .rstr s => s
  | .rnum n => jsNumToString n
  | .rbool b => if b then "true" else "false"
  | .rnull => "null"
  | .rarr l => rawJoin l
  | .robj => "[object Object]"

/-- JavaScript `Array.prototype.join(",")` on raw values: `null` elements
join as the empty string, other elements by their string conversion. -/
def rawJoin : List Raw → String
  | [] => ""
  | [.rnull] => ""
  | [x] => rawToStr x
  | .rnull :: xs => "," ++ rawJoin xs
  | x :: xs => rawToStr x ++ "," ++ rawJoin xs
end

/-- JavaScript `ToPrimitive` on a raw value as used by `+` and the
relational operators: arrays and plain objects convert to their string
form, primitives stay themselves. -/
def toPrimRaw : Raw → Raw
  | .rarr l => .rstr (rawJoin l)
  | .robj => .rstr "[object Object]"
  | x => x

/-- JavaScript `Number(x)` on a raw value. -/
def rawToNumber : Raw → JsNum
  | .rstr s => jsParseNumber s
  | .rnum n => n
  | .rbool b => if b then .q 1 else .q 0
  | .rnull => .q 0
  | .rarr l => jsParseNumber (rawJoin l)
  | .robj => .nan

/-- Whether a raw value is a string. -/
def isRstr : Raw → Bool
  | .rstr _ => true
  | _ => false

/-- JavaScript `a + b` on raw values: after `ToPrimitive`, if either side is
a string the result is the concatenation of the string conversions,
otherwise the numeric sum. -/
def jsAddRaw (a b : Raw) : Raw :=
  let pa := toPrimRaw a
  let pb := toPrimRaw b
  if isRstr pa || isRstr pb then .rstr (rawToStr pa ++ rawToStr pb)
  else .rnum (jsNumAdd (rawToNumber pa) (rawToNumber pb))

/-- Numeric strict comparison used by the JavaScript relational operators
(false whenever a NaN is involved). -/
def jsNumLtB : JsNum → JsNum → Bool
  | .q a, .q b => decide (a < b)
  | _, _ => false

/-- JavaScript `a > b` on raw values: lexicographic when both primitives are
strings, numeric otherwise. -/
def jsGtRaw (a b : Raw) : Bool :=
  match toPrimRaw a, toPrimRaw b with
  | .rstr x, .rstr y => charListLt y.data x.data
  | pa, pb => jsNumLtB (rawToNumber pb) (rawToNumber pa)

/-- JavaScript `a < b` on raw values. -/
def jsLtRaw (a b : Raw) : Bool :=
  match toPrimRaw a, toPrimRaw b with
  | .rstr x, .rstr y => charListLt x.data y.data
  | pa, pb => jsNumLtB (rawToNumber pa) (rawToNumber pb)

/-- JavaScript truthiness of a raw value: `""`, `0`, NaN, `false` and
`null` are falsy; every other value (objects and arrays included) truthy. -/
def jsTruthy : Raw → Bool
  | .rstr s => !(s = "")
  | .rnum .nan => false
  | .rnum (.q x) => !(x = 0)
  | .rbool b => b
  | .rnull => false
  | .rarr _ => true
  | .robj => true

/-- The value model of `src/types.ts` (`BaseValue` and its subclasses).
`BooleanValue` is constructible but unreachable from the grammar.
`FormulaValue` (an expression with its own bound context) is omitted: no
claim involves it, and it would make `Value` and the AST mutually
recursive. -/
inductive Value where
  | str (s : String)
  | numb (n : JsNum)
  | bool (b : Bool)
  | null
  | err (msg : String)
  | coll (vs : List Value)

mutual
/-- JavaScript `String(v)` on a **boxed** `BaseValue` object, using the
class `toString` methods of `src/types.ts`: `NumberValue` and
`BooleanValue` print their value, `NullValue` prints the empty string,
`CollectionValue` prints its joined values, and `StringValue`/`ErrorValue`
define no `toString`, so they print `[object Object]`. -/
def boxedToText : Value → String
  | .str _ => "[object Object]"
  | .numb n => jsNumToString n
  | .bool b => if b then "true" else "false"
  | .null => ""
  | .err _ => "[object Object]"
  | .coll vs => boxedJoin vs

/-- Join of a `CollectionValue`'s element array (`values.toString()`):
comma-separated boxed string conversions. -/
def boxedJoin : List Value → String
  | [] => ""
  | [v] => boxedToText v
  | v :: vs => boxedToText v ++ "," ++ boxedJoin vs
end

/-- JavaScript `String(v.getValue())`: `getValue` unboxes a scalar to its
raw value (so a `StringValue` prints its text and a `NullValue` prints
`"null"`), a `CollectionValue` to its array of boxed elements (joined), and
an `ErrorValue` to itself (a plain object). -/
def getValueText : Value → String
  | .str s => s
  | .numb n => jsNumToString n
  | .bool b => if b then "true" else "false"
  | .null => "null"
  | .err _ => "[object Object]"
  | .coll vs => boxedJoin vs

/-- JavaScript truthiness of `v.getValue()`: the empty string, `0`, NaN,
`false` and `null` are falsy; arrays (even empty) and objects are truthy. -/
def valueFalsy : Value → Bool
  | .str s => s = ""
  | .numb .nan => true
  | .numb (.q x) => x = 0
  | .bool b => !b
  | .null => true
  | .err _ => false
  | .coll _ => false

/-- JavaScript `Number(v.getValue())`. -/
def toNumberV : Value → JsNum
  | .str s => jsParseNumber s
  | .numb n => n
  | .bool b => if b then .q 1 else .q 0
  | .null => .q 0
  | .err _ => .nan
  | .coll vs => jsParseNumber (boxedJoin vs)

/-- Whether a value is a `StringValue` (`typeof v.getValue() === "string"`). -/
def isStrV : Value → Bool
  | .str _ => true
  | _ => false

/-- Whether a value is an `ErrorValue` (`v instanceof ErrorValue`). -/
def isErrV : Value → Bool
  | .err _ => true
  | _ => false

/-- Whether a value is a `NumberValue` (`typeof v.getValue() === "number"`). -/
def isNumbV : Value → Bool
  | .numb _ => true
  | _ => false

/-- The wrapped number of a `NumberValue` (only consulted after `isNumbV`). -/
def numOf : Value → JsNum
  | .numb n => n
  | _ => .nan

/-- The guard `left instanceof Array` at `src/types.ts:43`.  It is applied
to the `Result<BaseValue>` object itself, and every evaluation result is a
`BaseValue` instance — a `CollectionValue` wraps its array but is not an
`Array` — so the test is identically false: the guard never fires. -/
def instanceofArray (_ : Value) : Bool := false

/-- The operand text used by the string branch of `+`:
`(value || "").toString()` — a falsy unboxed value contributes the empty
string, a truthy one its `getValue` string conversion. -/
def plusText (v : Value) : String := if valueFalsy v then "" else getValueText v

/-- The operator switch of `BinaryExpr.evaluate` (`src/types.ts` lines
40-70), applied after error propagation: the (dead) `instanceof Array`
guard, then `+` with its string-concatenation branch, then the numeric
operators, and `NullValue` for an unknown operator. -/
def binaryCombine (op : Char) (left right : Value) : Value :=
  if instanceofArray left || instanceofArray right then
    .err "params for binary op shouldn\x27t be array"
  else if op = '+' then
    if isStrV left || isStrV right then .str (plusText left ++ plusText right)
    else .numb (jsNumAdd (toNumberV left) (toNumberV right))
  else if op = '-' then .numb (jsNumSub (toNumberV left) (toNumberV right))
  else if op = '*' then .numb (jsNumMul (toNumberV left) (toNumberV right))
  else if op = '/' then .numb (jsNumDiv (toNumberV left) (toNumberV right))
  else if op = '^' then .numb (jsNumPow (toNumberV left) (toNumberV right))
  else .null

mutual
/-- Modelled from the spec: `unboxValue` is imported from `./utils` by
`src/types.ts` but absent from the src snapshot.  Per §4.3 the registry
functions "flatten one or more levels of nested `Collection` values into a
single flat sequence before reducing", so `unboxValue` maps a boxed value
to its raw JavaScript value, with a nested `Collection` becoming the flat
array of its recursively unboxed scalar elements.  An `ErrorValue` unboxes
to an opaque object. -/
def unboxValue : Value → Raw
  | .str s => .rstr s
  | .numb n => .rnum n
  | .bool b => .rbool b
  | .null => .rnull
  | .err _ => .robj
  | .coll vs => .rarr (flattenVals vs)

/-- Flat sequence of the recursively unboxed scalar elements of a
collection's value list (see `unboxValue`). -/
def flattenVals : List Value → List Raw
  | [] => []
  | .coll vs :: rest => flattenVals vs ++ flattenVals rest
  | v :: rest => unboxValue v :: flattenVals rest
end

/-- JavaScript `Array.prototype.flat()` (one level). -/
def jsFlat1 (l : List Raw) : List Raw :=
  l.flatMap fun x =>
    match x with
    | .rarr xs => xs
    | x => [x]

/-- The fixed registry names (`FUNCTION_LIST` of `src/types.ts`). -/
def FUNCTION_LIST : List String := ["SUM", "AVERAGE", "MAX", "MIN"]

/-- `FUNCTION_MAP.SUM` of `src/types.ts`: unbox and flatten the arguments;
empty yields `NullValue`; otherwise reduce with `+` starting from `""` when
any flattened element is a string and from `0` otherwise, boxing a string
result as `StringValue`, a number as `NumberValue`, anything else as NaN. -/
def sumFn (values : List Value) : Value :=
  let flatValues := jsFlat1 (values.map unboxValue)
  if flatValues.isEmpty then .null
  else
    match flatValues.foldl jsAddRaw (if flatValues.any isRstr then .rstr "" else .rnum (.q 0)) with
    | .rstr s => .str s
    | .rnum n => .numb n
    | _ => .numb .nan

/-- `FUNCTION_MAP.AVERAGE` of `src/types.ts`: the `+`-reduction from `0`
divided by the flattened length when numeric, NaN otherwise, `NullValue`
when empty. -/
def averageFn (values : List Value) : Value :=
  let flatValues := jsFlat1 (values.map unboxValue)
  if flatValues.isEmpty then .null
  else
    match flatValues.foldl jsAddRaw (.rnum (.q 0)) with
    | .rnum n => .numb (jsNumDiv n (.q flatValues.length))
    | _ => .numb .nan

/-- `FUNCTION_MAP.MAX` of `src/types.ts`: left-to-right reduction keeping
the larger element under the JavaScript `>` ordering. -/
def maxFn (values : List Value) : Value :=
  let flatValues := jsFlat1 (values.map unboxValue)
  match flatValues with
  | [] => .null
  | h :: t =>
    match t.foldl (fun a b => if jsGtRaw a b then a else b) h with
    | .rnum n => .numb n
    | .rstr s => .str s
    | _ => .numb .nan

/-- `FUNCTION_MAP.MIN` of `src/types.ts`: left-to-right reduction keeping
the smaller element under the JavaScript `<` ordering. -/
def minFn (values : List Value) : Value :=
  let flatValues := jsFlat1 (values.map unboxValue)
  match flatValues with
  | [] => .null
  | h :: t =>
    match t.foldl (fun a b => if jsLtRaw a b then a else b) h with
    | .rnum n => .numb n
    | .rstr s => .str s
    | _ => .numb .nan

/-- The `FUNCTION_MAP` registry of `src/types.ts`. -/
def FUNCTION_MAP : List (String × (List Value → Value)) :=
  [("SUM", sumFn), ("AVERAGE", averageFn), ("MAX", maxFn), ("MIN", minFn)]

/-- The column alphabet of `src/utils.ts`. -/
def alphabet : List Char := "ABCDEFGHIJKLMNOPQRSTUVWXYZ".data

/-- The successor of a column letter: `alphabet[idx + 1]`, which is absent
(carry) for `Z`. -/
def nextCharOf (c : Char) : Option Char :=
  (alphabet.findIdx? (· = c)).bind fun i => alphabet.get? (i + 1)

/-- `nextX` of `src/utils.ts` on the reversed character list (head = last
letter): reject a last character outside `A`-`Z`, otherwise increment it,
carrying into the shorter prefix — or into a fresh leading `A` (yielding
`AA` from a single `Z`). -/
def nextXRev : List Char → Except String (List Char)
  | [] => .error "invalid ref address: "
  | c :: rest =>
    if alphabet.contains c = false then
      .error ("invalid ref address: " ++ String.mk (c :: rest).reverse)
    else
      match nextCharOf c with
      | some c2 => .ok (c2 :: rest)
      | none =>
        if rest.isEmpty then .ok ['A', 'A']
        else
          match nextXRev rest with
          | .error e => .error e
          | .ok r => .ok ('A' :: r)

/-- `nextX` of `src/utils.ts`: spreadsheet column increment, throwing (the
`.error` channel) on a last character outside `A`-`Z`. -/
def nextX (s : String) : Except String String :=
  match nextXRev s.data.reverse with
  | .error e => .error e
  | .ok l => .ok (String.mk l.reverse)

/-- Membership in `A`-`Z`. -/
def isUpperAZ (c : Char) : Bool := 'A' ≤ c && c ≤ 'Z'

/-- The endpoint test `^[A-Z]+_[1-9]+[0-9]*$` of `RangeRefExpr.evaluate`:
one or more capital letters, an underscore, then digits with a nonzero
leading digit. -/
def validId (s : String) : Bool :=
  let letters := s.data.takeWhile isUpperAZ
  let rest := s.data.drop letters.length
  !letters.isEmpty &&
    match rest with
    | '_' :: d :: ds => ('1' ≤ d && d ≤ '9') && ds.all Char.isDigit
    | _ => false

/-- The column half of `id.split("_")` (index 0). -/
def colPart (s : String) : String := String.mk (s.data.takeWhile (fun c => c ≠ '_'))

/-- The row half of `id.split("_")` (index 1). -/
def rowPart (s : String) : String :=
  String.mk (((s.data.dropWhile (fun c => c ≠ '_')).drop 1).takeWhile (fun c => c ≠ '_'))

/-- JavaScript `Number` on the row strings of valid endpoints (runs of
decimal digits), as a natural number. -/
def rowVal (s : String) : ℕ := digitsToNat s.data

/-- The context mapping: reference id to boxed value (`Map<string,
BaseValue>`), modelled as an association list. -/
abbrev Ctx := List (String × Value)

/-- `Map.get` on the context. -/
def ctxGet : Ctx → String → Option Value
  | [], _ => none
  | (k, v) :: rest, id => if k = id then some v else ctxGet rest id

/-- The cell id `minX + "_" + minY` built by the range loop. -/
def mkCellId (col : String) (row : ℕ) : String := col ++ "_" ++ toString row

/-- The inner row loop of `RangeRefExpr.evaluate`: for one column, rows
`minY` to `maxY`, each missing cell contributing `NullValue`
(`ctx.get(currentId) ?? new NullValue()`). -/
def colCells (ctx : Ctx) (col : String) (minY maxY : ℕ) : List Value :=
  (List.range' minY (maxY + 1 - minY)).map fun y => (ctxGet ctx (mkCellId col y)).getD .null

/-- Fuel bound for the column loop (the source `while` terminates because
the shortlex successor eventually exceeds `maxX` lexicographically; the
bound exceeds the number of candidate columns of length at most
`maxX.length + 1`). -/
def colFuel (maxX : String) : ℕ := 27 ^ (maxX.length + 1)

/-- The outer column loop of `RangeRefExpr.evaluate`: while
`minX <= maxX` (JavaScript string comparison), emit the column's row cells
and advance the column with `nextX` (whose thrown error propagates). -/
def colsLoop (ctx : Ctx) : ℕ → String → String → ℕ → ℕ → Except String (List Value)
  | 0, _, _, _, _ => .ok []
  | fuel + 1, x, maxX, minY, maxY =>
    if jsStrLe x maxX then
      match nextX x with
      | .error e => .error e
      | .ok x2 =>
        match colsLoop ctx fuel x2 maxX minY maxY with
        | .error e => .error e
        | .ok rest => .ok (colCells ctx x minY maxY ++ rest)
    else .ok []

/-- `RangeRefExpr.evaluate` of `src/types.ts`: test both endpoint ids
against the pattern (throwing `invalid reference id` on the first failing
one, left endpoint first), split them, select `minX`/`maxX` and
`minY`/`maxY` by JavaScript string comparison (the rows are compared as
strings and only then converted to numbers), and run the column loop. -/
def rangeRefEvaluate (ctx : Ctx) (leftId rightId : String) : Except String Value :=
  if validId leftId = false then .error ("invalid reference id: " ++ leftId)
  else if validId rightId = false then .error ("invalid reference id: " ++ rightId)
  else
    let lx := colPart leftId
    let rx := colPart rightId
    let ly := rowPart leftId
    let ry := rowPart rightId
    let minX := if jsStrGt lx rx then rx else lx
    let maxX := if jsStrGt lx rx then lx else rx
    let minY := rowVal (if jsStrGt ly ry then ry else ly)
    let maxY := rowVal (if jsStrGt ly ry then ly else ry)
    match colsLoop ctx (colFuel maxX) minX maxX minY maxY with
    | .error e => .error e
    | .ok cells => .ok (.coll cells)

/-- The AST of `src/parser.ts`/`src/types.ts`.  Each node kind corresponds
to one `Expr` subclass; the child-count checks of the constructors are
enforced by the shape of each variant, and a `ReferenceExpr` built by the
parser always carries a string id (`getId` cannot throw), so `reference`
and `rangeRef` carry the id strings directly.  A `unary` with `none` for
its operator models the `Tokens.Empty` case. -/
inductive Expr where
  | number (x : ℚ)
  | strLit (s : String)
  | reference (id : String)
  | unary (op : Option Char) (e : Expr)
  | binary (op : Char) (l r : Expr)
  | rangeRef (l r : String)
  | fnCall (name : String) (args : List Expr)

mutual
/-- The `evaluate` methods of the `src/types.ts` AST classes, one match arm
per class.  Thrown errors travel in the `.error` channel; `ErrorValue`
results are ordinary `.ok` values (the two error tiers of the source). -/
def Expr.evaluate : Expr → Ctx → Except String Value
  | .number x, _ => .ok (.numb (.q x))
  | .strLit s, _ => .ok (.str s)
  | .reference id, ctx => .ok ((ctxGet ctx id).getD (.numb .nan))
  | .unary op e, ctx =>
    match Expr.evaluate e ctx with
    | .error m => .error m
    | .ok v =>
      if isErrV v then .ok v
      else if isNumbV v = false then
        .ok (.err ("unary expression can only receive number but got " ++ getValueText v))
      else
        match op with
        | none => .ok (.numb (numOf v))
        | some c => if c = '-' then .ok (.numb (jsNumNeg (numOf v))) else .ok (.numb .nan)
  | .binary op l r, ctx =>
    match Expr.evaluate l ctx with
    | .error m => .error m
    | .ok lv =>
      match Expr.evaluate r ctx with
      | .error m => .error m
      | .ok rv =>
        if isErrV lv then .ok lv
        else if isErrV rv then .ok rv
        else .ok (binaryCombine op lv rv)
  | .rangeRef leftId rightId, ctx => rangeRefEvaluate ctx leftId rightId
  | .fnCall name args, ctx =>
    match evalArgs args ctx with
    | .error m => .error m
    | .ok params =>
      if FUNCTION_LIST.contains name = false then
        .error ("invalid function name: \x27" ++ name)
      else
        match FUNCTION_MAP.lookup name with
        | some f => .ok (f params)
        | none => .ok .null

/-- Eager left-to-right evaluation of a `FunctionExpr`'s children
(`this.children.forEach(...)`); a thrown error aborts, an `ErrorValue`
is collected like any other value. -/
def evalArgs : List Expr → Ctx → Except String (List Value)
  | [], _ => .ok []
  | e :: es, ctx =>
    match Expr.evaluate e ctx with
    | .error m => .error m
    | .ok v =>
      match evalArgs es ctx with
      | .error m => .error m
      | .ok vs => .ok (v :: vs)
end

/-- The raw-value context of the `src/parser.ts` pipeline
(`Map<string, any>`). -/
abbrev RawCtx := List (String × Raw)

/-- `Map.get` on the raw context. -/
def rawCtxGet : RawCtx → String → Option Raw
  | [], _ => none
  | (k, v) :: rest, id => if k = id then some v else rawCtxGet rest id

/-- `ReferenceExpr.evaluate` of `src/parser.ts` (lines 128-136):
`if (ctx.get(id)) return ctx.get(id); return NaN;` — the looked-up raw
value is returned only when truthy, so a present falsy entry yields NaN
exactly like an absent one. -/
def rawReferenceEvaluate (ctx : RawCtx) (id : String) : Raw :=
  match rawCtxGet ctx id with
  | some v => if jsTruthy v then v else .rnum .nan
  | none => .rnum .nan

/-- The token kinds produced by the lexer of the latest snapshot (the token
data embedded in `src/types.ts`): numbers carry their numeric value,
references and function names their text, operators and delimiters their
character, and `endTok` is the reserved `End` sentinel (content
`END_TOKEN`). -/
inductive Tok where
  | num (x : ℚ)
  | ref (s : String)
  | fnName (s : String)
  | opTok (c : Char)
  | delim (c : Char)
  | endTok
deriving DecidableEq

/-- The parser's `this.current` token: the head of the remaining stream, or
the `End` sentinel once the stream is exhausted (the token stream returns
`End` tokens forever). -/
def curr (ts : List Tok) : Tok := ts.headD .endTok

/-- Parse-time structural failures of `src/parser.ts` (thrown errors that
abort the whole `parse` call), plus the out-of-fuel artifact of the
embedding.  The source has no `InvalidRange` failure. -/
inductive PErr where
  | fuel
  | unclosedParen
  | invalidExpression
  | missingOpenParen
deriving DecidableEq

/-- The `a1` loop test `isDelimiter(op) === "," || isDelimiter(op) === ":"`
on the captured separator token. -/
def isSepTok (t : Tok) : Bool :=
  match t with
  | .delim c => c = ',' || c = ':'
  | _ => false

/-- The `a1` break test on the current token:
`isDelimiter(current) === ")" || current.tokenContent === END_TOKEN`. -/
def isBreakTok (t : Tok) : Bool :=
  match t with
  | .delim c => c = ')'
  | .endTok => true
  | _ => false

mutual
/-- `Parser.e`: parse a term, then the `+`/`-` continuation.  All parser
functions consume the token stream from its head (`curr`/`tail` model the
`current` cursor and `next()`), and the `fuel` argument is the embedding's
termination measure, decremented at every call. -/
def parseE (fuel : ℕ) (ts : List Tok) : Except PErr (Expr × List Tok) :=
  match fuel with
  | 0 => .error .fuel
  | f + 1 =>
    match parseT f ts with
    | .error e => .error e
    | .ok (lhs, ts1) => parseE1 f lhs ts1

/-- `Parser.e1`: while the current token is `+` or `-`, fold a new binary
node whose left child is the previously built node. -/
def parseE1 (fuel : ℕ) (lhs : Expr) (ts : List Tok) : Except PErr (Expr × List Tok) :=
  match fuel with
  | 0 => .error .fuel
  | f + 1 =>
    match curr ts with
    | .opTok c =>
      if c = '+' || c = '-' then
        match parseT f ts.tail with
        | .error e => .error e
        | .ok (rhs, ts1) => parseE1 f (.binary c lhs rhs) ts1
      else .ok (lhs, ts)
    | _ => .ok (lhs, ts)

/-- `Parser.t`: parse a power, then the `*`/`/` continuation. -/
def parseT (fuel : ℕ) (ts : List Tok) : Except PErr (Expr × List Tok) :=
  match fuel with
  | 0 => .error .fuel
  | f + 1 =>
    match parseU f ts with
    | .error e => .error e
    | .ok (lhs, ts1) => parseT1 f lhs ts1

/-- `Parser.t1`: the left-folding `*`/`/` continuation. -/
def parseT1 (fuel : ℕ) (lhs : Expr) (ts : List Tok) : Except PErr (Expr × List Tok) :=
  match fuel with
  | 0 => .error .fuel
  | f + 1 =>
    match curr ts with
    | .opTok c =>
      if c = '*' || c = '/' then
        match parseU f ts.tail with
        | .error e => .error e
        | .ok (rhs, ts1) => parseT1 f (.binary c lhs rhs) ts1
      else .ok (lhs, ts)
    | _ => .ok (lhs, ts)

/-- `Parser.u`: parse a signed factor, then the `^` continuation. -/
def parseU (fuel : ℕ) (ts : List Tok) : Except PErr (Expr × List Tok) :=
  match fuel with
  | 0 => .error .fuel
  | f + 1 =>
    match parseS f ts with
    | .error e => .error e
    | .ok (lhs, ts1) => parseU1 f lhs ts1

/-- `Parser.u1`: while the current token is `^`, fold a new binary node
whose left child is the previously built node — `^` associates to the
left exactly like the other levels. -/
def parseU1 (fuel : ℕ) (lhs : Expr) (ts : List Tok) : Except PErr (Expr × List Tok) :=
  match fuel with
  | 0 => .error .fuel
  | f + 1 =>
    match curr ts with
    | .opTok c =>
      if c = '^' then
        match parseS f ts.tail with
        | .error e => .error e
        | .ok (rhs, ts1) => parseU1 f (.binary c lhs rhs) ts1
      else .ok (lhs, ts)
    | _ => .ok (lhs, ts)

/-- `Parser.s`: a leading `-` wraps the next factor in a unary node,
otherwise parse a factor. -/
def parseS (fuel : ℕ) (ts : List Tok) : Except PErr (Expr × List Tok) :=
  match fuel with
  | 0 => .error .fuel
  | f + 1 =>
    match curr ts with
    | .opTok c =>
      if c = '-' then
        match parseF f ts.tail with
        | .error e => .error e
        | .ok (arg, ts1) => .ok (.unary (some '-') arg, ts1)
      else parseF f ts
    | _ => parseF f ts

/-- `Parser.f`: a parenthesised expression (its missing `)` throws
`unclosedParen`), a number, a reference, or a function call; any other
token throws `invalidExpression`. -/
def parseF (fuel : ℕ) (ts : List Tok) : Except PErr (Expr × List Tok) :=
  match fuel with
  | 0 => .error .fuel
  | f + 1 =>
    match curr ts with
    | .delim c =>
      if c = '(' then
        match parseE f ts.tail with
        | .error e => .error e
        | .ok (e, ts1) =>
          match curr ts1 with
          | .delim c2 => if c2 = ')' then .ok (e, ts1.tail) else .error .unclosedParen
          | _ => .error .unclosedParen
      else .error .invalidExpression
    | .num x => .ok (.number x, ts.tail)
    | .ref s => .ok (.reference s, ts.tail)
    | .fnName s =>
      match parseA f ts.tail with
      | .error e => .error e
      | .ok (args, ts1) => .ok (.fnCall s args, ts1)
    | _ => .error .invalidExpression

/-- `Parser.a`: a function's argument list must open with `(`
(`missingOpenParen` otherwise), parses a first argument, runs the `a1`
separator loop, and requires the closing `)`. -/
def parseA (fuel : ℕ) (ts : List Tok) : Except PErr (List Expr × List Tok) :=
  match fuel with
  | 0 => .error .fuel
  | f + 1 =>
    match curr ts with
    | .delim c =>
      if c = '(' then
        match parseE f ts.tail with
        | .error e => .error e
        | .ok (lhs, ts1) =>
          match parseA1 f (curr ts1) [lhs] ts1 with
          | .error e => .error e
          | .ok (args, ts2) =>
            match curr ts2 with
            | .delim c2 => if c2 = ')' then .ok (args, ts2.tail) else .error .unclosedParen
            | _ => .error .unclosedParen
      else .error .missingOpenParen
    | _ => .error .missingOpenParen

/-- `Parser.a1`: the argument separator loop.  The loop guard inspects
`op0`, the token that was current when the loop was entered, and never
refreshes it; the loop breaks when the current token is `)` or the `End`
sentinel, otherwise it consumes one token and parses the next expression.
When `op0` is `,` the expression is appended; otherwise (`op0` is `:`) the
last accumulated argument is replaced by a `RangeRef` when both it and the
new expression are bare references, and the new expression is silently
discarded when either is not — no failure is raised in that case. -/
def parseA1 (fuel : ℕ) (op0 : Tok) (result : List Expr) (ts : List Tok) :
    Except PErr (List Expr × List Tok) :=
  match fuel with
  | 0 => .error .fuel
  | f + 1 =>
    if isSepTok op0 then
      if isBreakTok (curr ts) then .ok (result, ts)
      else
        match parseE f ts.tail with
        | .error e => .error e
        | .ok (nextE, ts1) =>
          if op0 = Tok.delim ',' then parseA1 f op0 (result ++ [nextE]) ts1
          else
            match result.getLast?, nextE with
            | some (.reference a), .reference b =>
              parseA1 f op0 (result.dropLast ++ [.rangeRef a b]) ts1
            | _, _ => parseA1 f op0 result ts1
    else .ok (result, ts)
end

/-- `Parser.parse`: scan, load the first token, parse one expression, and
return it (tokens left over after the expression are ignored, as in the
source). -/
def parseFormula (fuel : ℕ) (toks : List Tok) : Except PErr Expr :=
  match parseE fuel toks with
  | .error e => .error e
  | .ok (e, _) => .ok e

/-- The token stream the lexer produces for the formula text
`2 ^ 3 ^ 2`. -/
def toks232 : List Tok := [.num 2, .opTok '^', .num 3, .opTok '^', .num 2]

/-- The token stream the lexer produces for the formula text
`SUM(1:2)`. -/
def toksSum12 : List Tok :=
  [.fnName "SUM", .delim '(', .num 1, .delim ':', .num 2, .delim ')']

/-- The token stream of a trailing `^ e1 ^ e2 ...` power continuation with
numeric literals as the exponents. -/
def powToks (ns : List ℚ) : List Tok := ns.flatMap fun n => [.opTok '^', .num n]

/-- Whether a token is anything but the `^` operator (the condition under
which `u1` stops folding). -/
def notCaret (t : Tok) : Bool :=
  match t with
  | .opTok c => !(c = '^')
  | _ => true

/-- Definition following the specification's words: the "textual form" of
an operand value — the text of a String, the printed form of a Number,
`true`/`false` for a Boolean, and the empty textual form the spec gives
`Null`.  Stated for comparison with what the code actually concatenates. -/
def specTextualForm : Value → String
  | .str s => s
  | .numb n => jsNumToString n
  | .bool b => if b then "true" else "false"
  | .null => ""
  | .err _ => "[object Object]"
  | .coll vs => boxedJoin vs

/-- Whether a value is scalar: a String, Number, Boolean or Null — the
operand domain the specification admits for the arithmetic rules (it
rejects Collections first, and Errors propagate before the operator
logic). -/
def isScalarV : Value → Bool
  | .str _ => true
  | .numb _ => true
  | .bool _ => true
  | .null => true
  | _ => false

/-- Whether a raw value is a plain primitive (string, number, boolean or
null) — what every flattened element is once nested collections are
flattened and no error object is among the arguments. -/
def plainRaw : Raw → Bool
  | .rarr _ => false
  | .robj => false
  | _ => true

/-- Left-to-right textual concatenation of the string conversions of a raw
sequence onto an accumulator: the "textual concatenation of all elements in
order" of the specification. -/
def strConcatFrom (s : String) : List Raw → String
  | [] => s
  | x :: xs => strConcatFrom (s ++ rawToStr x) xs

/-- Left-to-right numeric sum of the number conversions of a raw sequence
onto an accumulator: the "numeric sum" of the specification. -/
def numSumFrom (n : JsNum) : List Raw → JsNum
  | [] => n
  | x :: xs => numSumFrom (jsNumAdd n (rawToNumber x)) xs

theorem charListLt_asymm : ∀ as bs, charListLt as bs = true → charListLt bs as = false := by
  intro as
  induction as with
  | nil => intro bs h; cases bs <;> simp [charListLt] at h ⊢
  | cons a as ih =>
    intro bs h
    cases bs with
    | nil => simp [charListLt] at h
    | cons b bs =>
      unfold charListLt at h ⊢
      rcases lt_trichotomy a b with hab | hab | hab
      · simp [hab, not_lt_of_gt hab]
      · subst hab
        simp [lt_irrefl] at h ⊢
        exact ih bs h
      · simp [hab, not_lt_of_gt hab] at h

theorem charListLt_eq_of_not : ∀ as bs, charListLt as bs = false → charListLt bs as = false → as = bs := by
  intro as
  induction as with
  | nil => intro bs h _; cases bs <;> simp [charListLt] at h ⊢
  | cons a as ih =>
    intro bs h h'
    cases bs with
    | nil => simp [charListLt] at h'
    | cons b bs =>
      unfold charListLt at h h'
      rcases lt_trichotomy a b with hab | hab | hab
      · simp [hab] at h
      · subst hab
        simp [lt_irrefl] at h h'
        exact congrArg (a :: ·) (ih bs h h')
      · simp [hab] at h'

theorem jsStrGt_asymm (a b : String) (h : jsStrGt a b = true) : jsStrGt b a = false :=
  charListLt_asymm _ _ h

theorem jsStrGt_eq_of_not (a b : String) (h : jsStrGt a b = false) (h' : jsStrGt b a = false) :
    a = b := by
  cases a with
  | mk da =>
    cases b with
    | mk db => exact congrArg String.mk (charListLt_eq_of_not da db h' h)

theorem strSel_min_comm (x y : String) :
    (if jsStrGt x y then y else x) = (if jsStrGt y x then x else y) := by
  cases hxy : jsStrGt x y <;> cases hyx : jsStrGt y x <;> simp
  · exact jsStrGt_eq_of_not x y hxy hyx
  · exact absurd (jsStrGt_asymm x y hxy) (by simp [hyx])

theorem strSel_max_comm (x y : String) :
    (if jsStrGt x y then x else y) = (if jsStrGt y x then y else x) := by
  cases hxy : jsStrGt x y <;> cases hyx : jsStrGt y x <;> simp
  · exact (jsStrGt_eq_of_not x y hxy hyx).symm
  · exact absurd (jsStrGt_asymm x y hxy) (by simp [hyx])

/-- C9: the column-increment function used by range expansion follows
spreadsheet rules: `nextX "A" = "B"`, `nextX "Z" = "AA"`,
`nextX "AZ" = "BA"` and `nextX "ZZ" = "AAA"` — the last letter is
incremented, carrying into a new leading `A` on overflow. -/
theorem C9_nextX_spreadsheet_rules :
    nextX "A" = .ok "B" ∧ nextX "Z" = .ok "AA" ∧
    nextX "AZ" = .ok "BA" ∧ nextX "ZZ" = .ok "AAA" :=
  ⟨rfl, rfl, rfl, rfl⟩

/-- C10: in the raw-value pipeline of `src/parser.ts`, a reference whose
context entry is falsy (for example the number `0`, the empty string, or
`null`) evaluates to NaN exactly like a reference that is absent from the
context. -/
theorem C10_falsy_reference_is_nan (ctx : RawCtx) (id : String)
    (h : rawCtxGet ctx id = none ∨ ∃ v, rawCtxGet ctx id = some v ∧ jsTruthy v = false) :
    rawReferenceEvaluate ctx id = .rnum .nan := by
  rcases h with h | ⟨v, hv, hf⟩
  · simp [rawReferenceEvaluate, h]
  · simp [rawReferenceEvaluate, hv, hf]

/-- Witness for C10 at the concrete context mapping `A_1` to the number
`0`: present but falsy, the reference still evaluates to NaN. -/
theorem C10_falsy_reference_is_nan_witness :
    rawReferenceEvaluate [("A_1", Raw.rnum (.q 0))] "A_1" = .rnum .nan :=
  C10_falsy_reference_is_nan _ _ (Or.inr ⟨Raw.rnum (.q 0), rfl, rfl⟩)

/-- C2 (the code bug, exhibited): evaluating `A_1 + "x"` in a context where
`A_1` holds the collection `[2]` does not produce a type error — the
`instanceof Array` guard of `src/types.ts:43` tests the boxed result
object, which is never an `Array`, so the collection flows into `+` and the
evaluation returns the string `"2x"` instead of the `TypeError` the claim
(and the parallel raw-value implementation at `src/parser.ts:54-55`)
prescribes. -/
theorem C2_collection_operand_not_rejected :
    Expr.evaluate (.binary '+' (.reference "A_1") (.strLit "x"))
      [("A_1", .coll [.numb (.q 2)])] = .ok (.str "2x") := rfl

/-- C3 (counterexample): parsing `SUM(1:2)` — a `:` separator whose two
sides are number literals, not bare references — succeeds, returning
`SUM` applied to the single argument `1` (the expression after `:` is
silently discarded); the whole parse does not fail with any
`InvalidRange` error, contrary to the claim. -/
theorem C3_no_invalid_range_failure :
    parseFormula 32 toksSum12 = .ok (.fnCall "SUM" [.number 1]) := rfl

/-- C7 (counterexample): evaluating `0 + "x"` yields the string `"x"`,
whereas the textual form of the left operand `0` concatenated with the
textual form of `"x"` is `"0x"` — the code maps the falsy operand `0` to
the empty string instead of its textual form. -/
theorem C7_plus_falsy_left_counterexample :
    Expr.evaluate (.binary '+' (.number 0) (.strLit "x")) [] = .ok (.str "x") ∧
    specTextualForm (.numb (.q 0)) ++ specTextualForm (.str "x") = "0x" ∧
    "x" ≠ "0x" :=
  ⟨rfl, rfl, by decide⟩

/-- C6: a malformed range endpoint (failing `^[A-Z]+_[1-9][0-9]*$`, tested
left endpoint first) and an unknown function name are raised as hard
failures in the thrown-error channel — never returned as `ErrorValue`
results through the ordinary evaluation return channel. -/
theorem C6_hard_failures :
    (∀ (ctx : Ctx) (l r : String), validId l = false →
      Expr.evaluate (.rangeRef l r) ctx = .error ("invalid reference id: " ++ l)) ∧
    (∀ (ctx : Ctx) (l r : String), validId l = true → validId r = false →
      Expr.evaluate (.rangeRef l r) ctx = .error ("invalid reference id: " ++ r)) ∧
    (∀ (ctx : Ctx) (name : String) (args : List Expr) (params : List Value),
      evalArgs args ctx = .ok params → FUNCTION_LIST.contains name = false →
      Expr.evaluate (.fnCall name args) ctx = .error ("invalid function name: \x27" ++ name)) := by
  refine ⟨?_, ?_, ?_⟩
  · intro ctx l r h
    simp [Expr.evaluate, rangeRefEvaluate, h]
  · intro ctx l r hl hr
    simp [Expr.evaluate, rangeRefEvaluate, hl, hr]
  · intro ctx name args params hargs hname
    simp only [Expr.evaluate, hargs, hname]
    simp

/-- Witness for C6 at concrete inputs: the lowercase endpoint `a` (on
either side) and the unknown function name `FOO`. -/
theorem C6_hard_failures_witness :
    Expr.evaluate (.rangeRef "a" "B_1") [] = .error ("invalid reference id: " ++ "a") ∧
    Expr.evaluate (.rangeRef "B_1" "c") [] = .error ("invalid reference id: " ++ "c") ∧
    Expr.evaluate (.fnCall "FOO" []) [] = .error ("invalid function name: \x27" ++ "FOO") :=
  ⟨C6_hard_failures.1 [] "a" "B_1" rfl,
   C6_hard_failures.2.1 [] "B_1" "c" rfl rfl,
   C6_hard_failures.2.2 [] "FOO" [] [] rfl rfl⟩

/-- C8: range expansion is endpoint-order-independent — for every context
and every pair of valid endpoint ids, swapping the endpoints evaluates to
the identical result, because `minX`/`maxX` and the row bounds are selected
by comparison before iteration. -/
theorem C8_range_endpoint_order_independent (ctx : Ctx) (l r : String)
    (hl : validId l = true) (hr : validId r = true) :
    Expr.evaluate (.rangeRef l r) ctx = Expr.evaluate (.rangeRef r l) ctx := by
  simp only [Expr.evaluate]
  rw [rangeRefEvaluate, rangeRefEvaluate]
  simp only [hl, hr]
  simp only [strSel_min_comm (colPart r) (colPart l), strSel_max_comm (colPart r) (colPart l),
    strSel_min_comm (rowPart r) (rowPart l), strSel_max_comm (rowPart r) (rowPart l)]
  simp

/-- Witness for C8 at the concrete pair `A_2`/`A_1` over the empty
context. -/
theorem C8_range_endpoint_order_independent_witness :
    Expr.evaluate (.rangeRef "A_2" "A_1") [] = Expr.evaluate (.rangeRef "A_1" "A_2") [] :=
  C8_range_endpoint_order_independent [] "A_2" "A_1" rfl rfl


theorem colsLoop_cells_shape (ctx : Ctx) :
    ∀ (fuel : ℕ) (x maxX : String) (minY maxY : ℕ) (cells : List Value),
      colsLoop ctx fuel x maxX minY maxY = .ok cells →
      ∀ v ∈ cells, ∃ id, v = (ctxGet ctx id).getD Value.null := by
  intro fuel
  induction fuel with
  | zero =>
    intro x maxX minY maxY cells h v hv
    simp [colsLoop] at h
    subst h
    simp at hv
  | succ f ih =>
    intro x maxX minY maxY cells h v hv
    rw [colsLoop] at h
    by_cases hle : jsStrLe x maxX = true
    · rw [if_pos hle] at h
      cases hnx : nextX x with
      | error e => simp only [hnx] at h; exact Except.noConfusion h
      | ok x2 =>
        simp only [hnx] at h
        cases hrec : colsLoop ctx f x2 maxX minY maxY with
        | error e => simp only [hrec] at h; exact Except.noConfusion h
        | ok rest =>
          simp only [hrec, Except.ok.injEq] at h
          subst h
          rcases List.mem_append.mp hv with hv' | hv'
          · simp [colCells] at hv'
            rcases hv' with ⟨y, _, hy⟩
            exact ⟨mkCellId x y, hy.symm⟩
          · exact ih x2 maxX minY maxY rest hrec v hv'
    · rw [if_neg hle] at h
      simp at h
      subst h
      simp at hv

theorem rangeRefEvaluate_collection (ctx : Ctx) (l r : String) (cells : List Value)
    (h : rangeRefEvaluate ctx l r = .ok (.coll cells)) :
    ∀ v ∈ cells, ∃ id, v = (ctxGet ctx id).getD Value.null := by
  intro v hv
  rw [rangeRefEvaluate] at h
  by_cases hl : validId l = false
  · rw [if_pos hl] at h
    simp at h
  · rw [if_neg hl] at h
    by_cases hr : validId r = false
    · rw [if_pos hr] at h
      simp at h
    · rw [if_neg hr] at h
      dsimp only at h
      split at h
      · simp at h
      · rename_i lst heq
        simp only [Except.ok.injEq, Value.coll.injEq] at h
        subst h
        exact colsLoop_cells_shape ctx _ _ _ _ _ lst heq v hv

/-- C4: the missing-lookup asymmetry.  First: a plain reference whose id is
absent from the context evaluates to `Number(NaN)`.  Second: every element
of an evaluated range's collection is the context lookup of some cell id
defaulted to `Null` — so a cell id absent from the context contributes
`Null` to the collection (third conjunct), never NaN. -/
theorem C4_missing_lookup_asymmetry :
    (∀ (ctx : Ctx) (id : String), ctxGet ctx id = none →
      Expr.evaluate (.reference id) ctx = .ok (.numb .nan)) ∧
    (∀ (ctx : Ctx) (l r : String) (cells : List Value),
      Expr.evaluate (.rangeRef l r) ctx = .ok (.coll cells) →
      ∀ v ∈ cells, ∃ id, v = (ctxGet ctx id).getD Value.null) ∧
    (∀ (ctx : Ctx) (id : String), ctxGet ctx id = none →
      (ctxGet ctx id).getD Value.null = Value.null) := by
  refine ⟨?_, ?_, ?_⟩
  · intro ctx id h
    simp [Expr.evaluate, h]
  · intro ctx l r cells h
    simp only [Expr.evaluate] at h
    exact rangeRefEvaluate_collection ctx l r cells h
  · intro ctx id h
    simp [h]

/-- Witness for C4 at concrete inputs: `Z_9` is absent from the empty
context and evaluates to NaN; the range `A_1:A_2` over the empty context
evaluates to a collection whose member `Null` is a defaulted lookup; and
the absent id `Q_1` defaults to `Null`. -/
theorem C4_missing_lookup_asymmetry_witness :
    Expr.evaluate (.reference "Z_9") [] = .ok (.numb .nan) ∧
    (∃ id, Value.null = (ctxGet ([] : Ctx) id).getD Value.null) ∧
    (ctxGet ([] : Ctx) "Q_1").getD Value.null = Value.null :=
  ⟨C4_missing_lookup_asymmetry.1 [] "Z_9" rfl,
   C4_missing_lookup_asymmetry.2.1 [] "A_1" "A_2" [Value.null, Value.null] rfl Value.null
     (by simp),
   C4_missing_lookup_asymmetry.2.2 [] "Q_1" rfl⟩

theorem parseU1_caret_step (f : ℕ) (lhs : Expr) (n : ℚ) (rest : List Tok) :
    parseU1 (f + 3) lhs (.opTok '^' :: .num n :: rest) =
      parseU1 (f + 2) (.binary '^' lhs (.number n)) rest := rfl

/-- C1: the `^` operator is left-associative.  First: the token stream of
`2 ^ 3 ^ 2` parses to the left-nested tree `(2 ^ 3) ^ 2`.  Second: that
tree evaluates against any context to the number `64` (so not `512`).
Third, in general: from any already-built node, `u1` folds a trailing
`^ e1 ^ e2 ...` continuation by making each new binary node's left child
the previously built node — a left fold. -/
theorem C1_caret_left_associative :
    parseFormula 32 toks232 =
      .ok (.binary '^' (.binary '^' (.number 2) (.number 3)) (.number 2)) ∧
    (∀ ctx : Ctx,
      Expr.evaluate (.binary '^' (.binary '^' (.number 2) (.number 3)) (.number 2)) ctx =
        .ok (.numb (.q 64))) ∧
    (∀ (ns : List ℚ) (f : ℕ) (lhs : Expr) (rest : List Tok),
      notCaret (curr rest) = true → 2 * ns.length + 2 ≤ f →
      parseU1 f lhs (powToks ns ++ rest) =
        .ok (ns.foldl (fun acc n => Expr.binary '^' acc (.number n)) lhs, rest)) := by
  refine ⟨rfl, fun _ => rfl, ?_⟩
  intro ns
  induction ns with
  | nil =>
    intro f lhs rest hnc hf
    obtain ⟨f1, rfl⟩ : ∃ k, f = k + 1 := ⟨f - 1, by omega⟩
    show parseU1 (f1 + 1) lhs rest = .ok (lhs, rest)
    cases hc : curr rest with
    | opTok c =>
      have hcc : ¬ c = '^' := by simpa [notCaret, hc] using hnc
      simp [parseU1, hc, hcc]
    | num x => simp [parseU1, hc]
    | ref s => simp [parseU1, hc]
    | fnName s => simp [parseU1, hc]
    | delim c => simp [parseU1, hc]
    | endTok => simp [parseU1, hc]
  | cons n ns ih =>
    intro f lhs rest hnc hf
    obtain ⟨g, rfl⟩ : ∃ g, f = g + 3 := ⟨f - 3, by rw [List.length_cons] at hf; omega⟩
    have hsplit : powToks (n :: ns) ++ rest = .opTok '^' :: .num n :: (powToks ns ++ rest) := by
      simp [powToks]
    rw [hsplit, parseU1_caret_step g lhs n (powToks ns ++ rest),
      ih (g + 2) (.binary '^' lhs (.number n)) rest hnc
        (by rw [List.length_cons] at hf; omega)]
    rfl

/-- Witness for C1's general left-fold conjunct at the concrete
continuation `^ 3 ^ 2` after the node `2`, with fuel `10`. -/
theorem C1_caret_left_associative_witness :
    parseU1 10 (Expr.number 2) (powToks [3, 2] ++ [Tok.endTok]) =
      .ok (Expr.binary '^' (Expr.binary '^' (Expr.number 2) (Expr.number 3)) (Expr.number 2),
        [Tok.endTok]) :=
  C1_caret_left_associative.2.2 [3, 2] 10 (Expr.number 2) [Tok.endTok] rfl (by decide)


/-- C3 (amended): what the `:` separator actually does during the `a1`
loop.  When the loop is not at a break token it consumes one token and
parses the next expression; with the captured separator `:`, if the last
accumulated argument and the next parsed expression are both bare
references, the last argument is replaced by a single `RangeRef` node
combining the two (first conjunct); if either side is not a bare
reference, the next parsed expression is silently discarded, the argument
list is left unchanged, and no `InvalidRange` (or any other) failure is
raised (second conjunct). -/
theorem C3_colon_separator_behavior :
    (∀ (f : ℕ) (res : List Expr) (ts ts1 : List Tok) (a b : String),
      isBreakTok (curr ts) = false →
      parseE f ts.tail = .ok (Expr.reference b, ts1) →
      res.getLast? = some (Expr.reference a) →
      parseA1 (f + 1) (Tok.delim ':') res ts =
        parseA1 f (Tok.delim ':') (res.dropLast ++ [Expr.rangeRef a b]) ts1) ∧
    (∀ (f : ℕ) (res : List Expr) (ts ts1 : List Tok) (e : Expr),
      isBreakTok (curr ts) = false →
      parseE f ts.tail = .ok (e, ts1) →
      (¬ ∃ a b, res.getLast? = some (Expr.reference a) ∧ e = Expr.reference b) →
      parseA1 (f + 1) (Tok.delim ':') res ts = parseA1 f (Tok.delim ':') res ts1) := by
  constructor
  · intro f res ts ts1 a b hbr hE hlast
    rw [parseA1]
    simp only [isSepTok, hbr, hE, hlast]
    simp
  · intro f res ts ts1 e hbr hE hne
    rw [parseA1]
    simp only [isSepTok, hbr, hE]
    simp only [decide_True, Bool.or_true, if_true, Bool.false_eq_true, if_false]
    have hop : (Tok.delim ':' = Tok.delim ',') = False := by simp
    simp only [hop, if_false]
    split
    · rename_i a2 b2 h1 h2
      exact absurd ⟨b2, h1, h2, rfl⟩ hne
    · rfl

/-- Witness for C3's amended behavior at concrete inputs: merging
`A_1 : A_2` into a `RangeRef`, and silently dropping the `2` of `1 : 2`. -/
theorem C3_colon_separator_behavior_witness :
    parseA1 9 (Tok.delim ':') [Expr.reference "A_1"]
        [Tok.delim ':', Tok.ref "A_2", Tok.delim ')'] =
      parseA1 8 (Tok.delim ':') [Expr.rangeRef "A_1" "A_2"] [Tok.delim ')'] ∧
    parseA1 9 (Tok.delim ':') [Expr.number 1] [Tok.delim ':', Tok.num 2, Tok.delim ')'] =
      parseA1 8 (Tok.delim ':') [Expr.number 1] [Tok.delim ')'] :=
  ⟨C3_colon_separator_behavior.1 8 [Expr.reference "A_1"] _ _ "A_1" "A_2" rfl rfl rfl,
   C3_colon_separator_behavior.2 8 [Expr.number 1] _ _ (Expr.number 2) rfl rfl
     (fun h => match h with | ⟨_, _, _, hb⟩ => Expr.noConfusion hb)⟩

/-- C7 (amended): `+` on scalar operand values.  If either operand is a
String, the result is a String: the concatenation of the two operands'
contributions, where a falsy operand (Number `0`, NaN, Null, Boolean
`false`, or the empty string) contributes the empty string and any other
operand its textual form — not always the textual form itself, as the
original claim said.  If neither operand is a String, both operands are
numerically coerced and added. -/
theorem C7_plus_behavior (l r : Value) (hl : isScalarV l = true) (hr : isScalarV r = true) :
    ((isStrV l || isStrV r) = true →
      binaryCombine '+' l r =
        .str ((if valueFalsy l then "" else specTextualForm l) ++
              (if valueFalsy r then "" else specTextualForm r))) ∧
    ((isStrV l || isStrV r) = false →
      binaryCombine '+' l r = .numb (jsNumAdd (toNumberV l) (toNumberV r))) := by
  have hpt : ∀ v : Value, isScalarV v = true →
      plusText v = if valueFalsy v then "" else specTextualForm v := by
    intro v _
    cases v <;> rfl
  constructor
  · intro hs
    rw [binaryCombine]
    simp only [instanceofArray, Bool.or_self, Bool.false_eq_true, if_false, if_pos rfl, hs,
      if_true, hpt l hl, hpt r hr]
  · intro hs
    rw [binaryCombine]
    simp only [instanceofArray, Bool.or_self, Bool.false_eq_true, if_false, if_pos rfl, hs,
      if_true]

/-- Witness for C7's amended behavior at concrete inputs: `0 + "x"` (falsy
numeric left operand, string right operand) and `2 + null` (no string
operand). -/
theorem C7_plus_behavior_witness :
    binaryCombine '+' (Value.numb (.q 0)) (Value.str "x") = .str "x" ∧
    binaryCombine '+' (Value.numb (.q 2)) Value.null = .numb (.q 2) := by
  constructor
  · have h := (C7_plus_behavior (Value.numb (.q 0)) (Value.str "x") rfl rfl).1 rfl
    simpa [valueFalsy, specTextualForm] using h
  · have h := (C7_plus_behavior (Value.numb (.q 2)) Value.null rfl rfl).2 rfl
    simpa [toNumberV, jsNumAdd] using h

theorem rawToStr_toPrim (x : Raw) : rawToStr (toPrimRaw x) = rawToStr x := by
  cases x <;> rfl

theorem foldl_jsAddRaw_str (l : List Raw) :
    ∀ s : String, l.foldl jsAddRaw (.rstr s) = .rstr (strConcatFrom s l) := by
  induction l with
  | nil => intro s; rfl
  | cons x xs ih =>
    intro s
    have hstep : jsAddRaw (.rstr s) x = .rstr (s ++ rawToStr x) := by
      cases x <;> rfl
    show xs.foldl jsAddRaw (jsAddRaw (.rstr s) x) = _
    rw [hstep]
    exact ih (s ++ rawToStr x)

theorem foldl_jsAddRaw_num (l : List Raw) :
    ∀ n : JsNum, l.all plainRaw = true → l.any isRstr = false →
      l.foldl jsAddRaw (.rnum n) = .rnum (numSumFrom n l) := by
  induction l with
  | nil => intro n _ _; rfl
  | cons x xs ih =>
    intro n hplain hstr
    simp only [List.all_cons, Bool.and_eq_true] at hplain
    simp only [List.any_cons, Bool.or_eq_false_iff] at hstr
    have hstep : jsAddRaw (.rnum n) x = .rnum (jsNumAdd n (rawToNumber x)) := by
      cases x with
      | rstr s => simp [isRstr] at hstr
      | rnum m => rfl
      | rbool b => rfl
      | rnull => rfl
      | rarr a => simp [plainRaw] at hplain
      | robj => simp [plainRaw] at hplain
    show xs.foldl jsAddRaw (jsAddRaw (.rnum n) x) = _
    rw [hstep]
    exact ih (jsNumAdd n (rawToNumber x)) hplain.2 hstr.2

/-- C5: the behavior of `SUM`, stated over the flattened argument
sequence.  Empty input yields `Null`.  If any flattened element is a
string, the result is the String obtained by concatenating the textual
forms of all flattened elements in order (so `SUM("2","3") = "23"`).
Otherwise — for flattened sequences of plain primitives — the result is
the Number obtained as the left-to-right numeric sum of the elements. -/
theorem C5_sum_behavior (args : List Value) :
    (jsFlat1 (args.map unboxValue) = [] → sumFn args = Value.null) ∧
    ((jsFlat1 (args.map unboxValue)).any isRstr = true →
      sumFn args = .str (strConcatFrom "" (jsFlat1 (args.map unboxValue)))) ∧
    ((jsFlat1 (args.map unboxValue)).all plainRaw = true →
      (jsFlat1 (args.map unboxValue)).any isRstr = false →
      jsFlat1 (args.map unboxValue) ≠ [] →
      sumFn args = .numb (numSumFrom (.q 0) (jsFlat1 (args.map unboxValue)))) := by
  refine ⟨?_, ?_, ?_⟩
  · intro h
    simp [sumFn, h]
  · intro hany
    have hne : (jsFlat1 (args.map unboxValue)).isEmpty = false := by
      cases hl : jsFlat1 (args.map unboxValue) with
      | nil => rw [hl] at hany; simp at hany
      | cons a as => rfl
    rw [sumFn]
    simp only [hne, Bool.false_eq_true, if_false, hany, if_true]
    rw [foldl_jsAddRaw_str]
  · intro hplain hstr hne
    have hne2 : (jsFlat1 (args.map unboxValue)).isEmpty = false := by
      cases hl : jsFlat1 (args.map unboxValue) with
      | nil => exact absurd hl hne
      | cons a as => rfl
    rw [sumFn]
    simp only [hne2, Bool.false_eq_true, if_false, hstr, if_true]
    rw [foldl_jsAddRaw_num _ _ hplain hstr]

/-- Witness for C5 at concrete inputs: `SUM()` is `Null`,
`SUM("2","3")` is the string `"23"`, and `SUM(2,3)` is the number `5`. -/
theorem C5_sum_behavior_witness :
    sumFn [] = Value.null ∧
    sumFn [.str "2", .str "3"] = .str "23" ∧
    sumFn [.numb (.q 2), .numb (.q 3)] = .numb (.q 5) := by
  refine ⟨(C5_sum_behavior []).1 rfl, ?_, ?_⟩
  · have h := (C5_sum_behavior [Value.str "2", Value.str "3"]).2.1 rfl
    simpa [jsFlat1, unboxValue, strConcatFrom, rawToStr] using h
  · have h := (C5_sum_behavior [Value.numb (.q 2), Value.numb (.q 3)]).2.2 rfl rfl
      (by simp [jsFlat1, unboxValue])
    norm_num [jsFlat1, unboxValue, numSumFrom, rawToNumber, jsNumAdd] at h
    exact h
